import Mathlib

/-!
Verification of the GhostTrace follower-tracker core (src/app.js): a shallow
embedding of the JSON value model, the two Instagram-export normalizers
(`InstagramDataParser.parseFollowers` / `parseFollowing`), the comparison
engine (`ComparisonEngine`), the whitelist operations
(`DatabaseManager.addToWhitelist` / `removeFromWhitelist`), the tab views of
`UIController.renderUserList`, and the `UIController.analyzeData` workflow.
JavaScript runtime behaviour relevant to the code paths (truthiness, property
access on `null` raising a type error, `x || null` coercion, optional
chaining, `Array.isArray` guards) is modelled explicitly.
-/

/-- A JSON value, as produced by `JSON.parse` on an uploaded file.  Objects
are modelled as association lists of fields; inputs coming from `JSON.parse`
carry no duplicate keys, and lookups take the first match. -/
inductive Json where
  | null
  | bool (b : Bool)
  | num (n : Int)
  | str (s : String)
  | arr (xs : List Json)
  | obj (fields : List (String × Json))
deriving Repr

/-- Errors a normalizer run can surface: `parseError` models the deliberate
`throw new Error(msg)` statements of src/app.js (the spec's `ParseError`),
while `typeError` models a JavaScript `TypeError` raised by property access
on `null`/`undefined` or by calling `.forEach` on a non-array value. -/
inductive JsError where
  | parseError (msg : String)
  | typeError
deriving DecidableEq, Repr

/-- JavaScript truthiness of a JSON value: `null`, `false`, `0` and the empty
string are falsy; every array and object (including empty ones) is truthy. -/
def truthy : Json → Bool
  | Json.null => false
  | Json.bool b => b
  | Json.num n => n != 0
  | Json.str s => !s.isEmpty
  | Json.arr _ => true
  | Json.obj _ => true

/-- Truthiness of a possibly-`undefined` value (`none` models `undefined`). -/
def truthyOpt : Option Json → Bool
  | none => false
  | some j => truthy j

/-- Property access `j.k`: raises a `TypeError` on `null`, returns the field
on objects (`none` models `undefined` for a missing field), and `undefined`
on the primitives and arrays for the field names used by src/app.js. -/
def jsGetField : Json → String → Except JsError (Option Json)
  | Json.null, _ => .error JsError.typeError
  | Json.obj fs, k => .ok (fs.lookup k)
  | _, _ => .ok none

/-- Pure field lookup for values already known to be non-`null` (used only on
such values): the field on objects, `undefined` elsewhere. -/
def jsGetFieldD : Json → String → Option Json
  | Json.obj fs, k => fs.lookup k
  | _, _ => none

/-- The JavaScript coercion `x || null`: keeps a truthy value, collapses
`undefined` and every falsy value (including `0` and `""`) to `null`.  Models
the `data.timestamp || null` and `data.href || null` expressions of
src/app.js lines 218-219, 260-261, 269-270 and 284-296. -/
def orNull : Option Json → Json
  | none => Json.null
  | some j => if truthy j then j else Json.null

/-- Indexing `j[0]`: first element of an array, field `"0"` of an object,
first character of a non-empty string, `undefined` otherwise. -/
def jsIndex0 : Json → Option Json
  | Json.arr xs => xs.head?
  | Json.obj fs => fs.lookup "0"
  | Json.str s => if s.isEmpty then none else some (Json.str (s.take 1))
  | _ => none

/-- Optional chaining `x?.[0]` on a possibly-`undefined` value: `undefined`
when `x` is `undefined` or `null`, otherwise plain indexing. -/
def jsOptChainIndex0 : Option Json → Option Json
  | none => none
  | some Json.null => none
  | some j => jsIndex0 j

/-- The ASCII case fold `s.toLowerCase()` applied to a string: lower-case
every character (the JavaScript fold restricted to the ASCII usernames in
scope), written over the character list so that it evaluates on literals. -/
def strLower (s : String) : String :=
  ⟨s.data.map Char.toLower⟩

/-- The call `x.toLowerCase()`: succeeds exactly on strings; on any
non-string value the method is absent or the receiver is `null`, a
`TypeError`. -/
def jsToLower : Json → Except JsError String
  | Json.str s => .ok (strLower s)
  | _ => .error JsError.typeError

/-- Sequential effectful map, modelling a JavaScript `forEach`/`map` loop
that stops at the first thrown exception. -/
def jsMapM (f : α → Except JsError β) : List α → Except JsError (List β)
  | [] => .ok []
  | a :: as => do
    let b ← f a
    let bs ← jsMapM f as
    pure (b :: bs)

/-- One canonical user record, exactly the object literal pushed by
src/app.js lines 216-220 (and 258-262, 267-271, 282-296): the fields
`username`, `timestamp` and `href`, holding the JSON values the parser
stored there. -/
structure UserRecord where
  username : Json
  timestamp : Json
  href : Json
deriving Repr

/-- The JavaScript object a parser actually pushes for a record: the literal
at src/app.js lines 216-220 has exactly the keys `username`, `timestamp` and
`href`. -/
def recordToObj (u : UserRecord) : Json :=
  Json.obj [("username", u.username), ("timestamp", u.timestamp), ("href", u.href)]

/-- The inner loop body of `parseFollowers` (src/app.js lines 214-222): for
one entry of a `string_list_data` array, push a record when `data.value` is
truthy; accessing `data.value` on a `null` entry raises a `TypeError`. -/
def parseEntry (data : Json) : Except JsError (List UserRecord) := do
  let v ← jsGetField data "value"
  match v with
  | some jv =>
    if truthy jv then do
      let ts ← jsGetField data "timestamp"
      let hr ← jsGetField data "href"
      pure [⟨jv, orNull ts, orNull hr⟩]
    else
      pure []
  | none => pure []

/-- One iteration of the `parseFollowers` outer loop (src/app.js lines
212-224): an item contributes records only when its `string_list_data` field
is truthy and an array; accessing the field on a `null` item raises a
`TypeError`. -/
def parseItem (item : Json) : Except JsError (List UserRecord) := do
  let sld ← jsGetField item "string_list_data"
  match sld with
  | some (Json.arr entries) => do
    let ls ← jsMapM parseEntry entries
    pure ls.flatten
  | _ => pure []

/-- `InstagramDataParser.parseFollowers` (src/app.js lines 188-231): rejects
falsy input ("File appears to be empty"), non-array input ("Expected
Instagram export format..."), and a first element lacking both a truthy
`string_list_data` and a truthy `value` ("Unrecognized file format...");
otherwise collects the records of every item.  The `catch` block of the
source only logs and rethrows, so it does not alter the result. -/
def parseFollowers (jsonData : Json) : Except JsError (List UserRecord) :=
  if !truthy jsonData then .error (JsError.parseError "File appears to be empty")
  else match jsonData with
    | Json.arr [] => .ok []
    | Json.arr (first :: rest) => do
      let sld ← jsGetField first "string_list_data"
      let v ← jsGetField first "value"
      if !truthyOpt sld && !truthyOpt v then
        .error (JsError.parseError "Unrecognized file format. Make sure you uploaded the followers_1.json file from Instagram export.")
      else do
        let chunks ← jsMapM parseItem (first :: rest)
        pure chunks.flatten
    | _ => .error (JsError.parseError "Expected Instagram export format. File should contain an array of follower data.")

/-- The title branch shared by both `parseFollowing` loops (src/app.js lines
256-262 and 280-286): `const data = item.string_list_data?.[0] || {}` and a
single record pushed with the username taken from `item.title`, the metadata
from `data.timestamp || null` / `data.href || null`. -/
def parseTitleItem (item : Json) (title : Json) : Except JsError UserRecord := do
  let sldOpt ← jsGetField item "string_list_data"
  let d := jsOptChainIndex0 sldOpt
  let data := match d with
    | some j => if truthy j then j else Json.obj []
    | none => Json.obj []
  let ts ← jsGetField data "timestamp"
  let hr ← jsGetField data "href"
  pure ⟨title, orNull ts, orNull hr⟩

/-- One iteration of the bare-array `parseFollowing` loop (src/app.js lines
254-275): a truthy `title` wins and yields exactly one record; otherwise a
`string_list_data` field that is truthy and an array is scanned for `value`
entries. -/
def parseFollowingItemBare (item : Json) : Except JsError (List UserRecord) := do
  let t ← jsGetField item "title"
  match t with
  | some jt =>
    if truthy jt then do
      let r ← parseTitleItem item jt
      pure [r]
    else do
      let sld ← jsGetField item "string_list_data"
      match sld with
      | some (Json.arr entries) => do
        let ls ← jsMapM parseEntry entries
        pure ls.flatten
      | _ => pure []
  | none => do
    let sld ← jsGetField item "string_list_data"
    match sld with
    | some (Json.arr entries) => do
      let ls ← jsMapM parseEntry entries
      pure ls.flatten
    | _ => pure []

/-- One iteration of the `relationships_following` loop (src/app.js lines
278-299): same title branch, but the fallback checks only that
`string_list_data` is truthy (no `Array.isArray` guard, unlike line 263), so
a truthy non-array value reaches `.forEach` and raises a `TypeError`. -/
def parseFollowingItemWrapped (item : Json) : Except JsError (List UserRecord) := do
  let t ← jsGetField item "title"
  match t with
  | some jt =>
    if truthy jt then do
      let r ← parseTitleItem item jt
      pure [r]
    else do
      let sld ← jsGetField item "string_list_data"
      match sld with
      | some (Json.arr entries) => do
        let ls ← jsMapM parseEntry entries
        pure ls.flatten
      | some j => if truthy j then .error JsError.typeError else pure []
      | none => pure []
  | none => do
    let sld ← jsGetField item "string_list_data"
    match sld with
    | some (Json.arr entries) => do
      let ls ← jsMapM parseEntry entries
      pure ls.flatten
    | some j => if truthy j then .error JsError.typeError else pure []
    | none => pure []

/-- `InstagramDataParser.parseFollowing` (src/app.js lines 233-309): rejects
falsy input; on an array checks the first element for a truthy `title`,
`string_list_data` or `value` and then runs the bare loop; on a non-array
follows the `relationships_following` field when truthy (an array is
iterated with the wrapped loop, a truthy non-array raises a `TypeError` at
`.forEach`), otherwise rejects with the format error. -/
def parseFollowing (jsonData : Json) : Except JsError (List UserRecord) :=
  if !truthy jsonData then .error (JsError.parseError "File appears to be empty")
  else match jsonData with
    | Json.arr [] => .ok []
    | Json.arr (first :: rest) => do
      let t ← jsGetField first "title"
      let sld ← jsGetField first "string_list_data"
      let v ← jsGetField first "value"
      if !truthyOpt t && !truthyOpt sld && !truthyOpt v then
        .error (JsError.parseError "Unrecognized file format. Make sure you uploaded the following.json file from Instagram export.")
      else do
        let chunks ← jsMapM parseFollowingItemBare (first :: rest)
        pure chunks.flatten
    | _ => do
      let rf ← jsGetField jsonData "relationships_following"
      match rf with
      | some (Json.arr items) => do
        let chunks ← jsMapM parseFollowingItemWrapped items
        pure chunks.flatten
      | some j =>
        if truthy j then .error JsError.typeError
        else .error (JsError.parseError "Expected Instagram export format. File should contain following data or relationships_following array.")
      | none => .error (JsError.parseError "Expected Instagram export format. File should contain following data or relationships_following array.")

/-- Null test on a JSON value (used by the failure characterizations). -/
def Json.isNull : Json → Bool
  | Json.null => true
  | _ => false

/-- String test on a JSON value: the data model of the spec requires every
username to be a string. -/
def isStr : Json → Bool
  | Json.str _ => true
  | _ => false

/-- Modelled from the spec: the `normalizedKey` of a record, the lower-cased
username (section 3 of the spec).  The source stores no such field; each call
site recomputes `u.username.toLowerCase()`, which this function captures for
string usernames. -/
def normalizedKey (u : UserRecord) : String :=
  match u.username with
  | Json.str s => strLower s
  | _ => ""

/-- The key set a `ComparisonEngine` function builds first:
`new Set(list.map(u => u.username.toLowerCase()))` (src/app.js lines 317,
322, 327), modelled as the list of lowered keys (set membership below is
`List.contains`, which agrees with `Set.has`). -/
def lowerKeys (l : List UserRecord) : Except JsError (List String) :=
  jsMapM (fun u => jsToLower u.username) l

/-- The shared `filter` loop of the engine (src/app.js lines 318, 323, 328):
keep the records whose lowered username is absent from `keys`, evaluating
`u.username.toLowerCase()` per element in order. -/
def filterByAbsentKeys (keys : List String) : List UserRecord → Except JsError (List UserRecord)
  | [] => .ok []
  | u :: us => do
    let k ← jsToLower u.username
    let rest ← filterByAbsentKeys keys us
    pure (if keys.contains k then rest else u :: rest)

/-- The complementary filter used by the whitelist tab (src/app.js lines
735-737): keep the records whose lowered username is present in `keys`. -/
def filterByPresentKeys (keys : List String) : List UserRecord → Except JsError (List UserRecord)
  | [] => .ok []
  | u :: us => do
    let k ← jsToLower u.username
    let rest ← filterByPresentKeys keys us
    pure (if keys.contains k then u :: rest else rest)

/-- `ComparisonEngine.findUnfollowers` (src/app.js lines 316-319). -/
def findUnfollowers (previousFollowers currentFollowers : List UserRecord) :
    Except JsError (List UserRecord) := do
  let currentSet ← lowerKeys currentFollowers
  filterByAbsentKeys currentSet previousFollowers

/-- `ComparisonEngine.findNewFollowers` (src/app.js lines 321-324). -/
def findNewFollowers (previousFollowers currentFollowers : List UserRecord) :
    Except JsError (List UserRecord) := do
  let previousSet ← lowerKeys previousFollowers
  filterByAbsentKeys previousSet currentFollowers

/-- `ComparisonEngine.findNotFollowingBack` (src/app.js lines 326-329). -/
def findNotFollowingBack (followers following : List UserRecord) :
    Except JsError (List UserRecord) := do
  let followersSet ← lowerKeys followers
  filterByAbsentKeys followersSet following

/-- `DatabaseManager.addToWhitelist` (src/app.js lines 162-169): lower-case
the username, push it only when absent; the boolean reports whether
`saveSetting` was called (it is skipped when the key is already present). -/
def addToWhitelist (whitelist : List String) (username : String) : List String × Bool :=
  let lowerUsername := strLower username
  if whitelist.contains lowerUsername then (whitelist, false)
  else (whitelist ++ [lowerUsername], true)

/-- `DatabaseManager.removeFromWhitelist` (src/app.js lines 171-176):
lower-case the username, filter it out, and always call `saveSetting`. -/
def removeFromWhitelist (whitelist : List String) (username : String) : List String × Bool :=
  let lowerUsername := strLower username
  (whitelist.filter (fun u => u != lowerUsername), true)

/-- The `notFollowingBack` tab of `UIController.renderUserList` (src/app.js
lines 727-732): the not-following-back records whose lowered username is not
whitelisted. -/
def notFollowingBackTab (notFollowingBack : List UserRecord) (whitelist : List String) :
    Except JsError (List UserRecord) :=
  filterByAbsentKeys whitelist notFollowingBack

/-- The `whitelist` tab of `UIController.renderUserList` (src/app.js lines
733-739): the not-following-back records whose lowered username is
whitelisted, re-derived from the same list on every render. -/
def whitelistTab (notFollowingBack : List UserRecord) (whitelist : List String) :
    Except JsError (List UserRecord) :=
  filterByPresentKeys whitelist notFollowingBack

/-- One stored snapshot (src/app.js lines 88-92): capture date plus the two
normalized lists; dates are modelled as naturals ordered like the ISO
strings the source compares. -/
structure Snapshot where
  date : Nat
  followers : List UserRecord
  following : List UserRecord

/-- The result object `UIController.analyzeData` stores in `currentData`
(src/app.js lines 628-634). -/
structure AnalysisResult where
  followers : List UserRecord
  following : List UserRecord
  unfollowers : List UserRecord
  newFollowers : List UserRecord
  notFollowingBack : List UserRecord

/-- `DatabaseManager.getLatestSnapshot` (src/app.js lines 115-119): sort by
date descending and take the head; with the stable sort of the source this
is the first stored snapshot of maximal date, `none` on an empty store. -/
def getLatestSnapshot (snaps : List Snapshot) : Option Snapshot :=
  snaps.foldl
    (fun acc s =>
      match acc with
      | none => some s
      | some m => if s.date > m.date then some s else some m)
    none

/-- The core of `UIController.analyzeData` (src/app.js lines 596-648) as a
state transition on the snapshot store: parse both files (a parse failure
propagates before anything is saved), read the latest snapshot, append this
run's snapshot, then compute the differentials against the snapshot read
before the append.  The pair returns the store after the run together with
the outcome. -/
def analyzeData (store : List Snapshot) (now : Nat) (followersJson followingJson : Json) :
    List Snapshot × Except JsError AnalysisResult :=
  match parseFollowers followersJson with
  | .error e => (store, .error e)
  | .ok followers =>
    match parseFollowing followingJson with
    | .error e => (store, .error e)
    | .ok following =>
      let previousSnapshot := getLatestSnapshot store
      let store2 := store ++ [⟨now, followers, following⟩]
      let diffs : Except JsError (List UserRecord × List UserRecord) :=
        match previousSnapshot with
        | some prev => do
          let u ← findUnfollowers prev.followers followers
          let n ← findNewFollowers prev.followers followers
          pure (u, n)
        | none => pure ([], [])
      match diffs with
      | .error e => (store2, .error e)
      | .ok (u, n) =>
        match findNotFollowingBack followers following with
        | .error e => (store2, .error e)
        | .ok nfb => (store2, .ok ⟨followers, following, u, n, nfb⟩)

/-- Records one non-null `string_list_data` entry contributes (the success
value of `parseEntry`): one record when the `value` field is truthy, with
`timestamp` / `href` coerced through `x || null`. -/
def valueRecord (data : Json) : List UserRecord :=
  match data with
  | Json.obj fs =>
    match fs.lookup "value" with
    | some jv =>
      if truthy jv then [⟨jv, orNull (fs.lookup "timestamp"), orNull (fs.lookup "href")⟩]
      else []
    | none => []
  | _ => []

/-- Records one non-null followers item contributes (the success value of
`parseItem`): the value records of an array-valued `string_list_data`,
nothing otherwise. -/
def itemRecords (item : Json) : List UserRecord :=
  match item with
  | Json.obj fs =>
    match fs.lookup "string_list_data" with
    | some (Json.arr entries) => (entries.map valueRecord).flatten
    | _ => []
  | _ => []

/-- A followers item on which the source loop raises a `TypeError`: the item
itself is `null`, or an entry of its array-valued `string_list_data` is
`null`. -/
def itemHasNull (item : Json) : Bool :=
  item.isNull ||
    (match item with
     | Json.obj fs =>
       match fs.lookup "string_list_data" with
       | some (Json.arr entries) => entries.any Json.isNull
       | _ => false
     | _ => false)

/-- The first-element rejection test of `parseFollowers` (src/app.js line
208) for a non-null first element: neither a truthy `string_list_data` nor a
truthy `value` field. -/
def firstLacksBoth (first : Json) : Bool :=
  match first with
  | Json.obj fs => !truthyOpt (fs.lookup "string_list_data") && !truthyOpt (fs.lookup "value")
  | _ => true

/-- Modelled from the amended claim C2: the exact outcome of
`parseFollowers` — a format error on falsy or non-array input or a first
element lacking both fields, a type error when the first element is `null`
or any item (or entry of an array-valued `string_list_data`) is `null`, and
otherwise one record per truthy-`value` entry. -/
def parseFollowersSpec (j : Json) : Except JsError (List UserRecord) :=
  if !truthy j then .error (JsError.parseError "File appears to be empty")
  else match j with
    | Json.arr [] => .ok []
    | Json.arr (first :: rest) =>
      if first.isNull then .error JsError.typeError
      else if firstLacksBoth first then
        .error (JsError.parseError "Unrecognized file format. Make sure you uploaded the followers_1.json file from Instagram export.")
      else if (first :: rest).any itemHasNull then .error JsError.typeError
      else .ok (((first :: rest).map itemRecords).flatten)
    | _ => .error (JsError.parseError "Expected Instagram export format. File should contain an array of follower data.")

/-- The metadata object the title branch reads,
`item.string_list_data?.[0] || {}` for a `string_list_data` field holding
`sld`. -/
def titleMeta (sld : Json) : Json :=
  match jsOptChainIndex0 (some sld) with
  | some j => if truthy j then j else Json.obj []
  | none => Json.obj []

/-- The timestamp the title branch stores: `data.timestamp || null` on the
metadata object. -/
def titleTs (sld : Json) : Json :=
  orNull (jsGetFieldD (titleMeta sld) "timestamp")

/-- The profile link the title branch stores: `data.href || null` on the
metadata object. -/
def titleHref (sld : Json) : Json :=
  orNull (jsGetFieldD (titleMeta sld) "href")

@[simp] lemma exceptBind_ok (a : α) (f : α → Except JsError β) :
    (Except.ok a >>= f : Except JsError β) = f a := rfl

@[simp] lemma exceptBind_error (e : JsError) (f : α → Except JsError β) :
    (Except.error e >>= f : Except JsError β) = Except.error e := rfl

@[simp] lemma exceptMap_ok (f : α → β) (a : α) :
    (f <$> (Except.ok a : Except JsError α)) = Except.ok (f a) := rfl

@[simp] lemma exceptMap_error (f : α → β) (e : JsError) :
    (f <$> (Except.error e : Except JsError α)) = Except.error e := rfl

@[simp] lemma exceptPure_eq (a : α) : (pure a : Except JsError α) = Except.ok a := rfl

lemma parseEntry_eq (data : Json) :
    parseEntry data =
      if data.isNull then .error JsError.typeError else .ok (valueRecord data) := by
  cases data with
  | obj fs =>
    cases h : fs.lookup "value" with
    | none => simp [parseEntry, jsGetField, valueRecord, Json.isNull, h]
    | some jv =>
      by_cases ht : truthy jv = true <;>
        simp [parseEntry, jsGetField, valueRecord, Json.isNull, h, ht]
  | null => rfl
  | bool b => rfl
  | num n => rfl
  | str s => rfl
  | arr xs => rfl

lemma jsMapM_parseEntry (es : List Json) :
    jsMapM parseEntry es =
      if es.any Json.isNull then .error JsError.typeError
      else .ok (es.map valueRecord) := by
  induction es with
  | nil => rfl
  | cons e es ih =>
    by_cases h1 : e.isNull = true <;> by_cases h2 : es.any Json.isNull = true <;>
      simp [jsMapM, parseEntry_eq, ih, h1, h2]

lemma parseItem_eq (item : Json) :
    parseItem item =
      if itemHasNull item then .error JsError.typeError else .ok (itemRecords item) := by
  cases item with
  | obj fs =>
    cases h : fs.lookup "string_list_data" with
    | none => simp [parseItem, jsGetField, itemRecords, itemHasNull, Json.isNull, h]
    | some sld =>
      cases sld with
      | arr es =>
        by_cases h2 : es.any Json.isNull = true
        · have hrec : jsMapM parseEntry es = Except.error JsError.typeError := by
            rw [jsMapM_parseEntry, if_pos h2]
          have hcond : itemHasNull (Json.obj fs) = true := by
            simp [itemHasNull, h, h2]
          simp [parseItem, jsGetField, h, hrec, hcond]
        · have hrec : jsMapM parseEntry es = Except.ok (es.map valueRecord) := by
            rw [jsMapM_parseEntry, if_neg h2]
          have hcond : itemHasNull (Json.obj fs) = false := by
            simp [itemHasNull, h, Json.isNull, Bool.not_eq_true] at h2 ⊢
            exact h2
          simp [parseItem, jsGetField, h, hrec, hcond, itemRecords]
      | null => simp [parseItem, jsGetField, itemRecords, itemHasNull, Json.isNull, h]
      | bool b => simp [parseItem, jsGetField, itemRecords, itemHasNull, Json.isNull, h]
      | num n => simp [parseItem, jsGetField, itemRecords, itemHasNull, Json.isNull, h]
      | str s => simp [parseItem, jsGetField, itemRecords, itemHasNull, Json.isNull, h]
      | obj fs2 => simp [parseItem, jsGetField, itemRecords, itemHasNull, Json.isNull, h]
  | null => rfl
  | bool b => rfl
  | num n => rfl
  | str s => rfl
  | arr xs => rfl

lemma jsMapM_parseItem (items : List Json) :
    jsMapM parseItem items =
      if items.any itemHasNull then .error JsError.typeError
      else .ok (items.map itemRecords) := by
  induction items with
  | nil => rfl
  | cons i is ih =>
    by_cases h1 : itemHasNull i = true <;> by_cases h2 : is.any itemHasNull = true <;>
      simp [jsMapM, parseItem_eq, ih, h1, h2]

lemma contains_eq_decide_mem (x : String) (l : List String) :
    l.contains x = decide (x ∈ l) := by
  induction l with
  | nil => simp
  | cons a l ih => simp [List.contains_cons, ih, beq_iff_eq, eq_comm]

lemma lowerKeys_eq (l : List UserRecord) (h : ∀ u ∈ l, isStr u.username = true) :
    lowerKeys l = .ok (l.map normalizedKey) := by
  induction l with
  | nil => rfl
  | cons u us ih =>
    have hu := h u (List.mem_cons_self u us)
    have ih2 := ih (fun v hv => h v (List.mem_cons_of_mem _ hv))
    cases hv : u.username with
    | str s =>
      have h1 : jsToLower (Json.str s) = Except.ok (strLower s) := rfl
      simp only [lowerKeys, jsMapM] at ih2 ⊢
      simp [h1, ih2, normalizedKey, hv]
    | null => rw [hv] at hu; exact absurd hu (by simp [isStr])
    | bool b => rw [hv] at hu; exact absurd hu (by simp [isStr])
    | num n => rw [hv] at hu; exact absurd hu (by simp [isStr])
    | arr xs => rw [hv] at hu; exact absurd hu (by simp [isStr])
    | obj fs => rw [hv] at hu; exact absurd hu (by simp [isStr])

lemma filterByAbsentKeys_eq (keys : List String) (l : List UserRecord)
    (h : ∀ u ∈ l, isStr u.username = true) :
    filterByAbsentKeys keys l =
      .ok (l.filter fun u => !keys.contains (normalizedKey u)) := by
  induction l with
  | nil => rfl
  | cons u us ih =>
    have hu := h u (List.mem_cons_self u us)
    have ih2 := ih (fun v hv => h v (List.mem_cons_of_mem _ hv))
    cases hv : u.username with
    | str s =>
      have h1 : jsToLower (Json.str s) = Except.ok (strLower s) := rfl
      by_cases hc : keys.contains (strLower s) = true <;>
        simp [filterByAbsentKeys, h1, hv, ih2, normalizedKey, hc, List.filter_cons]
    | null => rw [hv] at hu; exact absurd hu (by simp [isStr])
    | bool b => rw [hv] at hu; exact absurd hu (by simp [isStr])
    | num n => rw [hv] at hu; exact absurd hu (by simp [isStr])
    | arr xs => rw [hv] at hu; exact absurd hu (by simp [isStr])
    | obj fs => rw [hv] at hu; exact absurd hu (by simp [isStr])

lemma filterByPresentKeys_eq (keys : List String) (l : List UserRecord)
    (h : ∀ u ∈ l, isStr u.username = true) :
    filterByPresentKeys keys l =
      .ok (l.filter fun u => keys.contains (normalizedKey u)) := by
  induction l with
  | nil => rfl
  | cons u us ih =>
    have hu := h u (List.mem_cons_self u us)
    have ih2 := ih (fun v hv => h v (List.mem_cons_of_mem _ hv))
    cases hv : u.username with
    | str s =>
      have h1 : jsToLower (Json.str s) = Except.ok (strLower s) := rfl
      by_cases hc : keys.contains (strLower s) = true <;>
        simp [filterByPresentKeys, h1, hv, ih2, normalizedKey, hc, List.filter_cons]
    | null => rw [hv] at hu; exact absurd hu (by simp [isStr])
    | bool b => rw [hv] at hu; exact absurd hu (by simp [isStr])
    | num n => rw [hv] at hu; exact absurd hu (by simp [isStr])
    | arr xs => rw [hv] at hu; exact absurd hu (by simp [isStr])
    | obj fs => rw [hv] at hu; exact absurd hu (by simp [isStr])

lemma findUnfollowers_eq (a b : List UserRecord)
    (ha : ∀ u ∈ a, isStr u.username = true) (hb : ∀ u ∈ b, isStr u.username = true) :
    findUnfollowers a b =
      .ok (a.filter fun u => !(b.map normalizedKey).contains (normalizedKey u)) := by
  simp [findUnfollowers, lowerKeys_eq b hb, filterByAbsentKeys_eq _ a ha]

lemma findNewFollowers_eq (a b : List UserRecord)
    (ha : ∀ u ∈ a, isStr u.username = true) (hb : ∀ u ∈ b, isStr u.username = true) :
    findNewFollowers a b =
      .ok (b.filter fun u => !(a.map normalizedKey).contains (normalizedKey u)) := by
  simp [findNewFollowers, lowerKeys_eq a ha, filterByAbsentKeys_eq _ b hb]

lemma findNotFollowingBack_eq (a b : List UserRecord)
    (ha : ∀ u ∈ a, isStr u.username = true) (hb : ∀ u ∈ b, isStr u.username = true) :
    findNotFollowingBack a b =
      .ok (b.filter fun u => !(a.map normalizedKey).contains (normalizedKey u)) := by
  simp [findNotFollowingBack, lowerKeys_eq a ha, filterByAbsentKeys_eq _ b hb]

lemma absent_filter_eq_decide (a b : List UserRecord) :
    (a.filter fun u => !(b.map normalizedKey).contains (normalizedKey u)) =
      (a.filter fun u => decide (∀ v ∈ b, normalizedKey u ≠ normalizedKey v)) := by
  apply List.filter_congr
  intro u _
  rw [contains_eq_decide_mem, ← decide_not]
  apply decide_eq_decide.mpr
  rw [List.mem_map]
  push_neg
  constructor
  · intro h v hv he
    exact h v hv he.symm
  · intro h v hv he
    exact h v hv he.symm

lemma jsGetField_not_null (j : Json) (k : String) (h : j.isNull = false) :
    jsGetField j k = .ok (jsGetFieldD j k) := by
  cases j <;> simp [Json.isNull] at h ⊢ <;> rfl

lemma titleMeta_not_null (sld : Json) : (titleMeta sld).isNull = false := by
  unfold titleMeta
  cases h : jsOptChainIndex0 (some sld) with
  | none => rfl
  | some j =>
    cases j with
    | null => rfl
    | arr xs => rfl
    | obj fs => rfl
    | bool b => cases b <;> rfl
    | num n => rcases eq_or_ne n 0 with h0 | h0 <;> simp [truthy, Json.isNull, h0]
    | str s => by_cases h0 : s.isEmpty = true <;> simp [truthy, Json.isNull, h0]

lemma parseTitleItem_eq (t sld : Json) :
    parseTitleItem (Json.obj [("title", t), ("string_list_data", sld)]) t =
      Except.ok ⟨t, titleTs sld, titleHref sld⟩ := by
  have h0 : jsGetField (Json.obj [("title", t), ("string_list_data", sld)]) "string_list_data"
      = .ok (some sld) := by
    simp [jsGetField, List.lookup]
  have hmeta : (match jsOptChainIndex0 (some sld) with
      | some j => if truthy j = true then j else Json.obj []
      | none => Json.obj []) = titleMeta sld := rfl
  simp only [parseTitleItem, h0, exceptBind_ok]
  rw [hmeta, jsGetField_not_null _ _ (titleMeta_not_null sld), exceptBind_ok,
    jsGetField_not_null _ _ (titleMeta_not_null sld), exceptBind_ok]
  rfl

lemma itemBare_title (t sld : Json) (h : truthy t = true) :
    parseFollowingItemBare (Json.obj [("title", t), ("string_list_data", sld)]) =
      .ok [⟨t, titleTs sld, titleHref sld⟩] := by
  have hT : jsGetField (Json.obj [("title", t), ("string_list_data", sld)]) "title"
      = .ok (some t) := by
    simp [jsGetField, List.lookup]
  simp only [parseFollowingItemBare, hT, exceptBind_ok, h, if_true, parseTitleItem_eq,
    exceptPure_eq]

lemma itemWrapped_title (t sld : Json) (h : truthy t = true) :
    parseFollowingItemWrapped (Json.obj [("title", t), ("string_list_data", sld)]) =
      .ok [⟨t, titleTs sld, titleHref sld⟩] := by
  have hT : jsGetField (Json.obj [("title", t), ("string_list_data", sld)]) "title"
      = .ok (some t) := by
    simp [jsGetField, List.lookup]
  simp only [parseFollowingItemWrapped, hT, exceptBind_ok, h, if_true, parseTitleItem_eq,
    exceptPure_eq]

lemma parseFollowing_title_bare (t sld : Json) (h : truthy t = true) :
    parseFollowing (Json.arr [Json.obj [("title", t), ("string_list_data", sld)]]) =
      .ok [⟨t, titleTs sld, titleHref sld⟩] := by
  have hT : jsGetField (Json.obj [("title", t), ("string_list_data", sld)]) "title"
      = .ok (some t) := by
    simp [jsGetField, List.lookup]
  have hS : jsGetField (Json.obj [("title", t), ("string_list_data", sld)]) "string_list_data"
      = .ok (some sld) := by
    simp [jsGetField, List.lookup]
  have hV : jsGetField (Json.obj [("title", t), ("string_list_data", sld)]) "value"
      = .ok none := by
    simp [jsGetField, List.lookup]
  have hA : truthy (Json.arr [Json.obj [("title", t), ("string_list_data", sld)]]) = true := rfl
  simp [parseFollowing, hA, hT, hS, hV, truthyOpt, h, jsMapM, itemBare_title t sld h]

lemma parseFollowing_title_wrapped (t sld : Json) (h : truthy t = true) :
    parseFollowing
        (Json.obj [("relationships_following",
          Json.arr [Json.obj [("title", t), ("string_list_data", sld)]])]) =
      .ok [⟨t, titleTs sld, titleHref sld⟩] := by
  have hR : jsGetField
      (Json.obj [("relationships_following",
        Json.arr [Json.obj [("title", t), ("string_list_data", sld)]])])
      "relationships_following"
      = .ok (some (Json.arr [Json.obj [("title", t), ("string_list_data", sld)]])) := by
    simp [jsGetField, List.lookup]
  have hA : truthy
      (Json.obj [("relationships_following",
        Json.arr [Json.obj [("title", t), ("string_list_data", sld)]])]) = true := rfl
  simp [parseFollowing, hA, hR, jsMapM, itemWrapped_title t sld h]

lemma length_filter_add_length_filter_not (l : List α) (p : α → Bool) :
    (l.filter p).length + (l.filter (fun a => !p a)).length = l.length := by
  induction l with
  | nil => rfl
  | cons a l ih => by_cases hp : p a = true <;> simp [List.filter_cons, hp] <;> omega

/-- C1: for all record sequences `a`, `b` with string usernames,
`findUnfollowers(a, b)`, `findNewFollowers(b, a)` and
`findNotFollowingBack(b, a)` each return exactly the elements of `a` whose
lower-cased username equals no lower-cased username of `b`, in the order of
`a` (a pure filter over immutable inputs, so neither argument is changed and
duplicate keys in `a` are all retained, never deduplicated). -/
theorem c1_engine_difference (a b : List UserRecord)
    (ha : ∀ u ∈ a, isStr u.username = true) (hb : ∀ u ∈ b, isStr u.username = true) :
    findUnfollowers a b =
      .ok (a.filter fun u => decide (∀ v ∈ b, normalizedKey u ≠ normalizedKey v)) ∧
    findNewFollowers b a =
      .ok (a.filter fun u => decide (∀ v ∈ b, normalizedKey u ≠ normalizedKey v)) ∧
    findNotFollowingBack b a =
      .ok (a.filter fun u => decide (∀ v ∈ b, normalizedKey u ≠ normalizedKey v)) := by
  refine ⟨?_, ?_, ?_⟩ <;> rw [← absent_filter_eq_decide]
  · exact findUnfollowers_eq a b ha hb
  · exact findNewFollowers_eq b a hb ha
  · exact findNotFollowingBack_eq b a hb ha

/-- Witness for C1 at a concrete input: two records sharing the lower-cased
key `x` against an empty second list are both retained, in order. -/
theorem c1_engine_difference_witness :
    findUnfollowers
        [⟨Json.str "X", Json.null, Json.null⟩, ⟨Json.str "x", Json.null, Json.null⟩] [] =
      .ok [⟨Json.str "X", Json.null, Json.null⟩, ⟨Json.str "x", Json.null, Json.null⟩] ∧
    findNewFollowers []
        [⟨Json.str "X", Json.null, Json.null⟩, ⟨Json.str "x", Json.null, Json.null⟩] =
      .ok [⟨Json.str "X", Json.null, Json.null⟩, ⟨Json.str "x", Json.null, Json.null⟩] ∧
    findNotFollowingBack []
        [⟨Json.str "X", Json.null, Json.null⟩, ⟨Json.str "x", Json.null, Json.null⟩] =
      .ok [⟨Json.str "X", Json.null, Json.null⟩, ⟨Json.str "x", Json.null, Json.null⟩] := by
  have h := c1_engine_difference
    [⟨Json.str "X", Json.null, Json.null⟩, ⟨Json.str "x", Json.null, Json.null⟩] []
    (by decide) (by decide)
  refine ⟨?_, ?_, ?_⟩
  · rw [h.1]; rfl
  · rw [h.2.1]; rfl
  · rw [h.2.2]; rfl

/-- C2 (amended): `parseFollowers` fails exactly when the input is falsy
(format error), the top-level value is not a sequence (format error), the
first element is `null` (type error) or lacks both a truthy
`string_list_data` and a truthy `value` (format error), or some element —
or some entry of an element's array-valued `string_list_data` — is `null`
(type error); otherwise it succeeds with one record per truthy-`value`
entry, as `parseFollowersSpec` states. -/
theorem c2_parse_followers_amended (j : Json) : parseFollowers j = parseFollowersSpec j := by
  cases j with
  | arr items =>
    cases items with
    | nil => rfl
    | cons first rest =>
      cases first with
      | null => rfl
      | obj fs =>
        simp only [parseFollowers, parseFollowersSpec, jsGetField, exceptBind_ok, truthy,
          Bool.not_true, Json.isNull, firstLacksBoth, Bool.false_eq_true, if_false]
        rw [jsMapM_parseItem]
        by_cases hl : (!truthyOpt (fs.lookup "string_list_data") &&
            !truthyOpt (fs.lookup "value")) = true
        · simp [hl]
        · by_cases hn : (Json.obj fs :: rest).any itemHasNull = true <;> simp [hl, hn]
      | bool b => rfl
      | num n => rfl
      | str s => rfl
      | arr xs => rfl
  | null => rfl
  | bool b => rfl
  | num n => rfl
  | str s => rfl
  | obj fs => rfl

/-- Counterexample to C2 as stated: the input
`[{"value": true}, null]` is a truthy sequence whose first element carries a
`value` field, so the claim requires success; `parseFollowers` instead fails,
and with a type error rather than a format error, because the loop touches
the `null` element. -/
theorem c2_counterexample :
    truthy (Json.arr [Json.obj [("value", Json.bool true)], Json.null]) = true ∧
    firstLacksBoth (Json.obj [("value", Json.bool true)]) = false ∧
    parseFollowers (Json.arr [Json.obj [("value", Json.bool true)], Json.null]) =
      .error JsError.typeError :=
  ⟨rfl, rfl, rfl⟩

/-- C3: a following-export element exposing a (truthy) `title` together with
a `string_list_data` field of any shape contributes exactly one record whose
username is the title; the `string_list_data` below it is read only for the
`timestamp`/`href` metadata of its first entry, never for an additional
username, in both the bare-array shape and the `relationships_following`
wrapper. -/
theorem c3_title_precedence (t sld : Json) (h : truthy t = true) :
    parseFollowing (Json.arr [Json.obj [("title", t), ("string_list_data", sld)]]) =
      .ok [⟨t, titleTs sld, titleHref sld⟩] ∧
    parseFollowing (Json.obj [("relationships_following",
        Json.arr [Json.obj [("title", t), ("string_list_data", sld)]])]) =
      .ok [⟨t, titleTs sld, titleHref sld⟩] :=
  ⟨parseFollowing_title_bare t sld h, parseFollowing_title_wrapped t sld h⟩

/-- Witness for C3: an element with title `bob` and a `string_list_data`
entry holding both a `value` (`x`) and a timestamp yields the single record
`bob` with that timestamp — no record for `x` — in both shapes. -/
theorem c3_title_precedence_witness :
    parseFollowing (Json.arr [Json.obj [("title", Json.str "bob"), ("string_list_data",
        Json.arr [Json.obj [("value", Json.str "x"), ("timestamp", Json.num 7)]])]]) =
      .ok [⟨Json.str "bob", Json.num 7, Json.null⟩] ∧
    parseFollowing (Json.obj [("relationships_following",
        Json.arr [Json.obj [("title", Json.str "bob"), ("string_list_data",
          Json.arr [Json.obj [("value", Json.str "x"), ("timestamp", Json.num 7)]])]])]) =
      .ok [⟨Json.str "bob", Json.num 7, Json.null⟩] :=
  c3_title_precedence (Json.str "bob")
    (Json.arr [Json.obj [("value", Json.str "x"), ("timestamp", Json.num 7)]]) (by decide)

/-- C4 is a code bug: on `[null]` the followers normalizer raises a type
error (property access on `null` at src/app.js line 208), and on
`{"relationships_following": [{"string_list_data": "oops"}]}` the following
normalizer raises a type error (`.forEach` on a string, src/app.js line
289), instead of the `ParseError` with a human-readable reason that the
claim requires. -/
theorem c4_normalizer_type_errors :
    parseFollowers (Json.arr [Json.null]) = .error JsError.typeError ∧
    parseFollowing (Json.obj [("relationships_following",
        Json.arr [Json.obj [("string_list_data", Json.str "oops")]])]) =
      .error JsError.typeError :=
  ⟨rfl, rfl⟩

/-- C5: with no prior snapshot (empty store) an analysis run that completes
reports empty unfollowers and empty new-followers without consulting the
engine, while the engine applied to a synthetic empty previous snapshot
would instead mark every current follower as new. -/
theorem c5_empty_history (now : Nat) (fj gj : Json) :
    (∀ r, (analyzeData [] now fj gj).2 = .ok r →
      r.unfollowers = [] ∧ r.newFollowers = []) ∧
    (∀ cur : List UserRecord, (∀ u ∈ cur, isStr u.username = true) →
      findNewFollowers [] cur = .ok cur) := by
  constructor
  · intro r hr
    cases hf : parseFollowers fj with
    | error e => simp [analyzeData, hf] at hr
    | ok f =>
      cases hg : parseFollowing gj with
      | error e => simp [analyzeData, hf, hg] at hr
      | ok g =>
        have hL : getLatestSnapshot ([] : List Snapshot) = none := rfl
        cases hnfb : findNotFollowingBack f g with
        | error e => simp [analyzeData, hf, hg, hL, hnfb] at hr
        | ok nfb =>
          simp only [analyzeData, hf, hg, hL, hnfb, exceptPure_eq, exceptBind_ok,
            Except.ok.injEq] at hr
          rw [← hr]
          exact ⟨rfl, rfl⟩
  · intro cur hcur
    have h1 : findNewFollowers [] cur = filterByAbsentKeys [] cur := rfl
    rw [h1, filterByAbsentKeys_eq [] cur hcur]
    simp

/-- Witness for C5: on an empty store with empty uploads the run succeeds
with empty differential lists, and the engine on a synthetic empty previous
snapshot marks the single current follower as new. -/
theorem c5_empty_history_witness :
    ((analyzeData [] 0 (Json.arr []) (Json.arr [])).2 =
        .ok ⟨[], [], [], [], []⟩ ∧
      (⟨[], [], [], [], []⟩ : AnalysisResult).unfollowers = [] ∧
      (⟨[], [], [], [], []⟩ : AnalysisResult).newFollowers = []) ∧
    findNewFollowers [] [⟨Json.str "a", Json.null, Json.null⟩] =
      .ok [⟨Json.str "a", Json.null, Json.null⟩] := by
  have h := c5_empty_history 0 (Json.arr []) (Json.arr [])
  refine ⟨⟨rfl, h.1 ⟨[], [], [], [], []⟩ rfl⟩,
    h.2 [⟨Json.str "a", Json.null, Json.null⟩] (by decide)⟩

/-- C6: in every analysis run both normalizations complete before the
snapshot is persisted (a parse failure leaves the store unchanged), and on
success the store grows by exactly this run's snapshot while the
differentials are computed against `getLatestSnapshot` of the store as it
was before the append — the just-appended snapshot is never its own
previous. -/
theorem c6_previous_before_append (s : List Snapshot) (now : Nat) (fj gj : Json) :
    (∀ e, parseFollowers fj = .error e → analyzeData s now fj gj = (s, .error e)) ∧
    (∀ f e, parseFollowers fj = .ok f → parseFollowing gj = .error e →
      analyzeData s now fj gj = (s, .error e)) ∧
    (∀ r, (analyzeData s now fj gj).2 = .ok r →
      parseFollowers fj = .ok r.followers ∧
      parseFollowing gj = .ok r.following ∧
      (analyzeData s now fj gj).1 = s ++ [⟨now, r.followers, r.following⟩] ∧
      (getLatestSnapshot s = none → r.unfollowers = [] ∧ r.newFollowers = []) ∧
      (∀ p, getLatestSnapshot s = some p →
        findUnfollowers p.followers r.followers = .ok r.unfollowers ∧
        findNewFollowers p.followers r.followers = .ok r.newFollowers) ∧
      findNotFollowingBack r.followers r.following = .ok r.notFollowingBack) := by
  refine ⟨?_, ?_, ?_⟩
  · intro e he
    simp [analyzeData, he]
  · intro f e hf hg
    simp [analyzeData, hf, hg]
  · intro r hr
    cases hf : parseFollowers fj with
    | error e => simp [analyzeData, hf] at hr
    | ok f =>
      cases hg : parseFollowing gj with
      | error e => simp [analyzeData, hf, hg] at hr
      | ok g =>
        cases hprev : getLatestSnapshot s with
        | none =>
          cases hnfb : findNotFollowingBack f g with
          | error e => simp [analyzeData, hf, hg, hprev, hnfb] at hr
          | ok nfb =>
            simp only [analyzeData, hf, hg, hprev, hnfb, exceptPure_eq, exceptBind_ok,
              Except.ok.injEq] at hr
            subst hr
            refine ⟨rfl, rfl, ?_, fun _ => ⟨rfl, rfl⟩, ?_, hnfb⟩
            · simp [analyzeData, hf, hg, hprev, hnfb]
            · intro p hp
              exact Option.noConfusion hp
        | some p0 =>
          cases hu : findUnfollowers p0.followers f with
          | error e => simp [analyzeData, hf, hg, hprev, hu] at hr
          | ok uList =>
            cases hn : findNewFollowers p0.followers f with
            | error e => simp [analyzeData, hf, hg, hprev, hu, hn] at hr
            | ok nList =>
              cases hnfb : findNotFollowingBack f g with
              | error e => simp [analyzeData, hf, hg, hprev, hu, hn, hnfb] at hr
              | ok nfb =>
                simp only [analyzeData, hf, hg, hprev, hu, hn, hnfb, exceptPure_eq,
                  exceptBind_ok, Except.ok.injEq] at hr
                subst hr
                refine ⟨rfl, rfl, ?_, ?_, ?_, hnfb⟩
                · simp [analyzeData, hf, hg, hprev, hu, hn, hnfb]
                · intro hnone
                  exact Option.noConfusion hnone
                · intro p hp
                  injection hp with h2
                  subst h2
                  exact ⟨hu, hn⟩

/-- Witness for C6: a store holding one empty snapshot, with empty uploads,
ends as that snapshot plus this run's snapshot, and the differentials are
those computed against the pre-existing snapshot. -/
theorem c6_previous_before_append_witness :
    (analyzeData [⟨0, [], []⟩] 1 (Json.arr []) (Json.arr [])).1 =
      [⟨0, [], []⟩] ++ [⟨1, [], []⟩] ∧
    findUnfollowers (Snapshot.followers ⟨0, [], []⟩) [] = .ok [] ∧
    findNewFollowers (Snapshot.followers ⟨0, [], []⟩) [] = .ok [] := by
  have h := (c6_previous_before_append [⟨0, [], []⟩] 1 (Json.arr []) (Json.arr [])).2.2
    ⟨[], [], [], [], []⟩ rfl
  exact ⟨h.2.2.1, (h.2.2.2.2.1 ⟨0, [], []⟩ rfl).1, (h.2.2.2.2.1 ⟨0, [], []⟩ rfl).2⟩

/-- C7: both whitelist operations normalize the input username to lower case
before mutating (two inputs with the same lower-casing act identically), and
both are idempotent: adding a username whose lower-casing is already present
leaves the whitelist unchanged (and skips the redundant write), and removing
one whose lower-casing is absent leaves it unchanged (completing with a
clean write of the unchanged list); neither case fails. -/
theorem c7_whitelist_idempotent (W : List String) (u v : String) :
    (strLower u = strLower v →
      addToWhitelist W u = addToWhitelist W v ∧
      removeFromWhitelist W u = removeFromWhitelist W v) ∧
    (strLower u ∈ W → addToWhitelist W u = (W, false)) ∧
    (strLower u ∉ W → removeFromWhitelist W u = (W, true)) := by
  refine ⟨fun he => ?_, fun hm => ?_, fun hm => ?_⟩
  · constructor <;> simp [addToWhitelist, removeFromWhitelist, he]
  · simp [addToWhitelist, contains_eq_decide_mem, hm]
  · simp only [removeFromWhitelist, Prod.mk.injEq, and_true]
    apply List.filter_eq_self.mpr
    intro a ha
    simp only [bne_iff_ne, ne_eq]
    exact fun e => hm (e ▸ ha)

/-- Witness for C7: adding `Alice` over `["alice"]` changes nothing and
skips the write, removing `Alice` from `["bob"]` changes nothing with a
clean write, and differently-cased spellings act identically. -/
theorem c7_whitelist_idempotent_witness :
    addToWhitelist ["alice"] "Alice" = (["alice"], false) ∧
    removeFromWhitelist ["bob"] "Alice" = (["bob"], true) ∧
    addToWhitelist ["x"] "AbC" = addToWhitelist ["x"] "aBc" :=
  ⟨(c7_whitelist_idempotent ["alice"] "Alice" "Alice").2.1 (by decide),
    (c7_whitelist_idempotent ["bob"] "Alice" "Alice").2.2 (by decide),
    ((c7_whitelist_idempotent ["x"] "AbC" "aBc").1 (by decide)).1⟩

/-- C8: for any whitelist `W` and not-following-back result `N` (with string
usernames), the rendered not-following-back view is exactly the elements of
`N` whose lower-cased username is not in `W`, the whitelist view exactly
those whose lower-cased username is in `W`, and the two views partition `N`:
they are disjoint, they jointly cover `N`, and their lengths sum to `N`'s. -/
theorem c8_views_partition (N : List UserRecord) (W : List String)
    (h : ∀ u ∈ N, isStr u.username = true) :
    notFollowingBackTab N W = .ok (N.filter fun u => decide (normalizedKey u ∉ W)) ∧
    whitelistTab N W = .ok (N.filter fun u => decide (normalizedKey u ∈ W)) ∧
    (∀ u, u ∈ N.filter (fun u => decide (normalizedKey u ∉ W)) →
      u ∈ N.filter (fun u => decide (normalizedKey u ∈ W)) → False) ∧
    (∀ u ∈ N, u ∈ N.filter (fun u => decide (normalizedKey u ∉ W)) ∨
      u ∈ N.filter (fun u => decide (normalizedKey u ∈ W))) ∧
    (N.filter (fun u => decide (normalizedKey u ∉ W))).length +
      (N.filter (fun u => decide (normalizedKey u ∈ W))).length = N.length := by
  have e1 : (fun u : UserRecord => !W.contains (normalizedKey u)) =
      (fun u : UserRecord => decide (normalizedKey u ∉ W)) := by
    funext u
    rw [contains_eq_decide_mem, ← decide_not]
  have e2 : (fun u : UserRecord => W.contains (normalizedKey u)) =
      (fun u : UserRecord => decide (normalizedKey u ∈ W)) := by
    funext u
    rw [contains_eq_decide_mem]
  have e3 : (fun u : UserRecord => decide (normalizedKey u ∉ W)) =
      (fun u : UserRecord => !decide (normalizedKey u ∈ W)) := by
    funext u
    rw [← decide_not]
  refine ⟨?_, ?_, ?_, ?_, ?_⟩
  · rw [show notFollowingBackTab N W = filterByAbsentKeys W N from rfl,
      filterByAbsentKeys_eq W N h, e1]
  · rw [show whitelistTab N W = filterByPresentKeys W N from rfl,
      filterByPresentKeys_eq W N h, e2]
  · intro u h1 h2
    have p1 := of_decide_eq_true (List.mem_filter.mp h1).2
    have p2 := of_decide_eq_true (List.mem_filter.mp h2).2
    exact p1 p2
  · intro u hu
    by_cases hw : normalizedKey u ∈ W
    · right
      exact List.mem_filter.mpr ⟨hu, decide_eq_true hw⟩
    · left
      exact List.mem_filter.mpr ⟨hu, decide_eq_true hw⟩
  · rw [e3, Nat.add_comm]
    exact length_filter_add_length_filter_not N _

/-- Witness for C8: with `N` holding `A` and `b` and whitelist `["a"]`, the
not-following-back view shows exactly `b` and the whitelist view exactly
`A`. -/
theorem c8_views_partition_witness :
    notFollowingBackTab
        [⟨Json.str "A", Json.null, Json.null⟩, ⟨Json.str "b", Json.null, Json.null⟩]
        ["a"] = .ok [⟨Json.str "b", Json.null, Json.null⟩] ∧
    whitelistTab
        [⟨Json.str "A", Json.null, Json.null⟩, ⟨Json.str "b", Json.null, Json.null⟩]
        ["a"] = .ok [⟨Json.str "A", Json.null, Json.null⟩] := by
  have h := c8_views_partition
    [⟨Json.str "A", Json.null, Json.null⟩, ⟨Json.str "b", Json.null, Json.null⟩]
    ["a"] (by decide)
  refine ⟨?_, ?_⟩
  · rw [h.1]; rfl
  · rw [h.2.1]; rfl

/-- Counterexample to C9 as stated: the record the followers normalizer
produces for `Alice` is the object with exactly the fields `username`,
`timestamp` and `href` (src/app.js lines 216-220); reading `normalizedKey`
on it yields `undefined` — no such field is stored. -/
theorem c9_counterexample :
    parseFollowers (Json.arr [Json.obj [("string_list_data",
        Json.arr [Json.obj [("value", Json.str "Alice")]])]]) =
      .ok [⟨Json.str "Alice", Json.null, Json.null⟩] ∧
    jsGetField (recordToObj ⟨Json.str "Alice", Json.null, Json.null⟩) "normalizedKey" =
      .ok none :=
  ⟨rfl, rfl⟩

/-- C9 (amended): normalization stores no `normalizedKey` field; instead
every equality, set-membership and whitelist check recomputes the
lower-cased username at its call site, so each of the three engine functions
and both whitelist-driven views filters precisely on `normalizedKey`
(the lower-cased username) — extensionally the spec's stored-key
semantics. -/
theorem c9_lowercase_recomputed_at_call_sites (a b : List UserRecord) (W : List String)
    (ha : ∀ u ∈ a, isStr u.username = true) (hb : ∀ u ∈ b, isStr u.username = true) :
    findUnfollowers a b =
      .ok (a.filter fun u => !(b.map normalizedKey).contains (normalizedKey u)) ∧
    findNewFollowers a b =
      .ok (b.filter fun u => !(a.map normalizedKey).contains (normalizedKey u)) ∧
    findNotFollowingBack a b =
      .ok (b.filter fun u => !(a.map normalizedKey).contains (normalizedKey u)) ∧
    notFollowingBackTab a W = .ok (a.filter fun u => !W.contains (normalizedKey u)) ∧
    whitelistTab a W = .ok (a.filter fun u => W.contains (normalizedKey u)) :=
  ⟨findUnfollowers_eq a b ha hb, findNewFollowers_eq a b ha hb,
    findNotFollowingBack_eq a b ha hb, filterByAbsentKeys_eq W a ha,
    filterByPresentKeys_eq W a ha⟩

/-- Witness for C9 (amended): `Alice` and `ALICE` collide on the recomputed
lower-cased key, and the whitelist view matches `Alice` against the stored
key `alice`. -/
theorem c9_lowercase_recomputed_witness :
    findUnfollowers [⟨Json.str "Alice", Json.null, Json.null⟩]
        [⟨Json.str "ALICE", Json.null, Json.null⟩] = .ok [] ∧
    whitelistTab [⟨Json.str "Alice", Json.null, Json.null⟩] ["alice"] =
      .ok [⟨Json.str "Alice", Json.null, Json.null⟩] := by
  have h := c9_lowercase_recomputed_at_call_sites
    [⟨Json.str "Alice", Json.null, Json.null⟩]
    [⟨Json.str "ALICE", Json.null, Json.null⟩] ["alice"] (by decide) (by decide)
  refine ⟨?_, ?_⟩
  · rw [h.1]; rfl
  · rw [h.2.2.2.2]; rfl

/-- C10: an entry carrying `timestamp: 0` (and an empty-string `href`) is
coerced by `x || null` to a record with `null` timestamp and `null` href,
indistinguishable from an entry that supplied no metadata at all, in both
normalizers. -/
theorem c10_falsy_metadata_coerced (v : String) (h : v.isEmpty = false) :
    parseFollowers (Json.arr [Json.obj [("string_list_data",
        Json.arr [Json.obj [("value", Json.str v), ("timestamp", Json.num 0),
          ("href", Json.str "")]])]]) =
      .ok [⟨Json.str v, Json.null, Json.null⟩] ∧
    parseFollowers (Json.arr [Json.obj [("string_list_data",
        Json.arr [Json.obj [("value", Json.str v)]])]]) =
      .ok [⟨Json.str v, Json.null, Json.null⟩] ∧
    parseFollowing (Json.arr [Json.obj [("title", Json.str v), ("string_list_data",
        Json.arr [Json.obj [("timestamp", Json.num 0), ("href", Json.str "")]])]]) =
      .ok [⟨Json.str v, Json.null, Json.null⟩] ∧
    parseFollowing (Json.arr [Json.obj [("title", Json.str v),
        ("string_list_data", Json.arr [])]]) =
      .ok [⟨Json.str v, Json.null, Json.null⟩] := by
  have ht : truthy (Json.str v) = true := by simp [truthy, h]
  have he : ("" : String).isEmpty = true := rfl
  refine ⟨?_, ?_, ?_, ?_⟩
  · simp [parseFollowers, jsGetField, List.lookup, truthyOpt, jsMapM, parseItem,
      parseEntry, orNull, truthy, h, he]
  · simp [parseFollowers, jsGetField, List.lookup, truthyOpt, jsMapM, parseItem,
      parseEntry, orNull, truthy, h]
  · rw [parseFollowing_title_bare (Json.str v)
      (Json.arr [Json.obj [("timestamp", Json.num 0), ("href", Json.str "")]]) ht]
    rfl
  · rw [parseFollowing_title_bare (Json.str v) (Json.arr []) ht]
    rfl

/-- Witness for C10 at the username `a`. -/
theorem c10_falsy_metadata_coerced_witness :
    parseFollowers (Json.arr [Json.obj [("string_list_data",
        Json.arr [Json.obj [("value", Json.str "a"), ("timestamp", Json.num 0),
          ("href", Json.str "")]])]]) =
      .ok [⟨Json.str "a", Json.null, Json.null⟩] ∧
    parseFollowing (Json.arr [Json.obj [("title", Json.str "a"), ("string_list_data",
        Json.arr [Json.obj [("timestamp", Json.num 0), ("href", Json.str "")]])]]) =
      .ok [⟨Json.str "a", Json.null, Json.null⟩] :=
  ⟨(c10_falsy_metadata_coerced "a" (by decide)).1,
    (c10_falsy_metadata_coerced "a" (by decide)).2.2.1⟩
